import Mathlib

/-!
Simplex noise tables and evaluators (`simplexnoise.h`)

A shallow embedding of the constant tables declared in `simplexnoise.h`
(`grad3`, `grad4`, `perm`, `simplex`) together with the index computations and
evaluators that read them, and the properties established about them.
-/

namespace SimplexNoise

/-! ## Static tables (transcribed from `simplexnoise.h`) -/

/-- The table `grad3[12][3]`: gradients used by the 2D and 3D evaluators. -/
def grad3 : List (List Int) := [
    [1, 1, 0], [-1, 1, 0], [1, -1, 0], [-1, -1, 0],
    [1, 0, 1], [-1, 0, 1], [1, 0, -1], [-1, 0, -1],
    [0, 1, 1], [0, -1, 1], [0, 1, -1], [0, -1, -1]
  ]

/-- The table `grad4[32][4]`: gradients used by the 4D evaluator. -/
def grad4 : List (List Int) := [
    [0, 1, 1, 1], [0, 1, 1, -1], [0, 1, -1, 1], [0, 1, -1, -1],
    [0, -1, 1, 1], [0, -1, 1, -1], [0, -1, -1, 1], [0, -1, -1, -1],
    [1, 0, 1, 1], [1, 0, 1, -1], [1, 0, -1, 1], [1, 0, -1, -1],
    [-1, 0, 1, 1], [-1, 0, 1, -1], [-1, 0, -1, 1], [-1, 0, -1, -1],
    [1, 1, 0, 1], [1, 1, 0, -1], [1, -1, 0, 1], [1, -1, 0, -1],
    [-1, 1, 0, 1], [-1, 1, 0, -1], [-1, -1, 0, 1], [-1, -1, 0, -1],
    [1, 1, 1, 0], [1, 1, -1, 0], [1, -1, 1, 0], [1, -1, -1, 0],
    [-1, 1, 1, 0], [-1, 1, -1, 0], [-1, -1, 1, 0], [-1, -1, -1, 0]
  ]

/-- The table `perm[512]`: the permutation table, the same list written twice. -/
def perm : List Nat := [
    151, 160, 137, 91, 90, 15, 131, 13, 201, 95, 96, 53, 194, 233, 7, 225, 140, 36, 103, 30, 69, 142,
    8, 99, 37, 240, 21, 10, 23, 190, 6, 148, 247, 120, 234, 75, 0, 26, 197, 62, 94, 252, 219, 203,
    117, 35, 11, 32, 57, 177, 33, 88, 237, 149, 56, 87, 174, 20, 125, 136, 171, 168, 68, 175, 74, 165,
    71, 134, 139, 48, 27, 166, 77, 146, 158, 231, 83, 111, 229, 122, 60, 211, 133, 230, 220, 105, 92, 41,
    55, 46, 245, 40, 244, 102, 143, 54, 65, 25, 63, 161, 1, 216, 80, 73, 209, 76, 132, 187, 208, 89,
    18, 169, 200, 196, 135, 130, 116, 188, 159, 86, 164, 100, 109, 198, 173, 186, 3, 64, 52, 217, 226, 250,
    124, 123, 5, 202, 38, 147, 118, 126, 255, 82, 85, 212, 207, 206, 59, 227, 47, 16, 58, 17, 182, 189,
    28, 42, 223, 183, 170, 213, 119, 248, 152, 2, 44, 154, 163, 70, 221, 153, 101, 155, 167, 43, 172, 9,
    129, 22, 39, 253, 19, 98, 108, 110, 79, 113, 224, 232, 178, 185, 112, 104, 218, 246, 97, 228, 251, 34,
    242, 193, 238, 210, 144, 12, 191, 179, 162, 241, 81, 51, 145, 235, 249, 14, 239, 107, 49, 192, 214, 31,
    181, 199, 106, 157, 184, 84, 204, 176, 115, 121, 50, 45, 127, 4, 150, 254, 138, 236, 205, 93, 222, 114,
    67, 29, 24, 72, 243, 141, 128, 195, 78, 66, 215, 61, 156, 180,

    151, 160, 137, 91, 90, 15, 131, 13, 201, 95, 96, 53, 194, 233, 7, 225, 140, 36, 103, 30, 69, 142,
    8, 99, 37, 240, 21, 10, 23, 190, 6, 148, 247, 120, 234, 75, 0, 26, 197, 62, 94, 252, 219, 203,
    117, 35, 11, 32, 57, 177, 33, 88, 237, 149, 56, 87, 174, 20, 125, 136, 171, 168, 68, 175, 74, 165,
    71, 134, 139, 48, 27, 166, 77, 146, 158, 231, 83, 111, 229, 122, 60, 211, 133, 230, 220, 105, 92, 41,
    55, 46, 245, 40, 244, 102, 143, 54, 65, 25, 63, 161, 1, 216, 80, 73, 209, 76, 132, 187, 208, 89,
    18, 169, 200, 196, 135, 130, 116, 188, 159, 86, 164, 100, 109, 198, 173, 186, 3, 64, 52, 217, 226, 250,
    124, 123, 5, 202, 38, 147, 118, 126, 255, 82, 85, 212, 207, 206, 59, 227, 47, 16, 58, 17, 182, 189,
    28, 42, 223, 183, 170, 213, 119, 248, 152, 2, 44, 154, 163, 70, 221, 153, 101, 155, 167, 43, 172, 9,
    129, 22, 39, 253, 19, 98, 108, 110, 79, 113, 224, 232, 178, 185, 112, 104, 218, 246, 97, 228, 251, 34,
    242, 193, 238, 210, 144, 12, 191, 179, 162, 241, 81, 51, 145, 235, 249, 14, 239, 107, 49, 192, 214, 31,
    181, 199, 106, 157, 184, 84, 204, 176, 115, 121, 50, 45, 127, 4, 150, 254, 138, 236, 205, 93, 222, 114,
    67, 29, 24, 72, 243, 141, 128, 195, 78, 66, 215, 61, 156, 180
  ]

/-- The table `simplex[64][4]`: traversal order of the 4D simplex, indexed by the
comparison mask. -/
def simplex : List (List Nat) := [
    [0, 1, 2, 3], [0, 1, 3, 2], [0, 0, 0, 0], [0, 2, 3, 1], [0, 0, 0, 0], [0, 0, 0, 0], [0, 0, 0, 0], [1, 2, 3, 0],
    [0, 2, 1, 3], [0, 0, 0, 0], [0, 3, 1, 2], [0, 3, 2, 1], [0, 0, 0, 0], [0, 0, 0, 0], [0, 0, 0, 0], [1, 3, 2, 0],
    [0, 0, 0, 0], [0, 0, 0, 0], [0, 0, 0, 0], [0, 0, 0, 0], [0, 0, 0, 0], [0, 0, 0, 0], [0, 0, 0, 0], [0, 0, 0, 0],
    [1, 2, 0, 3], [0, 0, 0, 0], [1, 3, 0, 2], [0, 0, 0, 0], [0, 0, 0, 0], [0, 0, 0, 0], [2, 3, 0, 1], [2, 3, 1, 0],
    [1, 0, 2, 3], [1, 0, 3, 2], [0, 0, 0, 0], [0, 0, 0, 0], [0, 0, 0, 0], [2, 0, 3, 1], [0, 0, 0, 0], [2, 1, 3, 0],
    [0, 0, 0, 0], [0, 0, 0, 0], [0, 0, 0, 0], [0, 0, 0, 0], [0, 0, 0, 0], [0, 0, 0, 0], [0, 0, 0, 0], [0, 0, 0, 0],
    [2, 0, 1, 3], [0, 0, 0, 0], [0, 0, 0, 0], [0, 0, 0, 0], [3, 0, 1, 2], [3, 0, 2, 1], [0, 0, 0, 0], [3, 1, 2, 0],
    [2, 1, 0, 3], [0, 0, 0, 0], [0, 0, 0, 0], [0, 0, 0, 0], [3, 1, 0, 2], [0, 0, 0, 0], [3, 2, 0, 1], [3, 2, 1, 0]
  ]

/-! ## Table access -/

/-- Entry `perm[i]` (0 outside the table). -/
def permAt (i : Nat) : Nat := perm.getD i 0

/-- Row `grad3[i]` (the empty row outside the table). -/
def grad3Row (i : Nat) : List Int := grad3.getD i []

/-- Row `grad4[i]` (the empty row outside the table). -/
def grad4Row (i : Nat) : List Int := grad4.getD i []

/-- Row `simplex[c]` (the empty row outside the table). -/
def simplexRow (c : Nat) : List Nat := simplex.getD c []

/-- Entry `simplex[c][a]` (0 outside the table). -/
def simplexAt (c a : Nat) : Nat := (simplexRow c).getD a 0

/-! ## Index computations on the tables

The bodies of the evaluators live in `simplexnoise.cpp`; the header only declares
them.  The index expressions below are the ones the specification gives for them. -/

/-- Modelled from the spec: the modulo-free double lookup `perm[I + perm[J]]` that the
duplication of `perm` is meant to allow (the lookup itself is in the evaluator bodies,
which the header does not contain).  `none` when an index falls outside the table. -/
def permLookup2 (I J : Nat) : Option Nat := do
  let p ← perm[J]?
  perm[I + p]?

/-- Modelled from the spec: the masked double lookup `P[(I + P[J & 255]) & 255]` of the
gradient-index formula (§4.2 step 4).  `none` when an index falls outside the table. -/
def permLookup2Masked (I J : Nat) : Option Nat := do
  let p ← perm[J &&& 255]?
  perm[(I + p) &&& 255]?

/-- Modelled from the spec: the 6-bit comparison mask of §4.3,
`c = (x0>y0)·32 + (x0>z0)·16 + (y0>z0)·8 + (x0>w0)·4 + (y0>w0)·2 + (z0>w0)`,
computed in the body of `raw_noise_4d` (not in the header). -/
def mask4 {α : Type} [LinearOrder α] (x0 y0 z0 w0 : α) : Nat :=
  (if x0 > y0 then 32 else 0) + (if x0 > z0 then 16 else 0) + (if y0 > z0 then 8 else 0) +
  (if x0 > w0 then 4 else 0) + (if y0 > w0 then 2 else 0) + (if z0 > w0 then 1 else 0)

/-- The mask `c` is the comparison mask of some four pairwise-distinct reals. -/
def IsStrictMask (c : Nat) : Prop :=
  ∃ x y z w : ℝ, x ≠ y ∧ x ≠ z ∧ x ≠ w ∧ y ≠ z ∧ y ≠ w ∧ z ≠ w ∧ mask4 x y z w = c

/-- Number of the four coordinates `x0, y0, z0, w0` strictly greater than `t`. -/
def numGreater {α : Type} [LinearOrder α] (x0 y0 z0 w0 t : α) : Nat :=
  ([x0, y0, z0, w0].filter (fun b => decide (t < b))).length

/-- Number of the four coordinates `x0, y0, z0, w0` strictly less than `t`. -/
def numLess {α : Type} [LinearOrder α] (x0 y0 z0 w0 t : α) : Nat :=
  ([x0, y0, z0, w0].filter (fun b => decide (b < t))).length

/-! ## Evaluators

`simplexnoise.h` declares `fastfloor`, `dot`, `raw_noise_2d`, `raw_noise_3d` and
`raw_noise_4d`; their bodies are not part of the header.  They are modelled here from
§4.1–§4.3 of the specification, over an arbitrary ordered field with a floor function
(exact arithmetic), reading the tables above.  The irrational constants `√3` and `√5`
are parameters, so that the definitions stay executable over the rationals. -/

/-- Modelled from the spec: `fastfloor` (declared in the header, body absent), §4.1:
"returns ⌊x⌋ for any finite float". -/
def fastfloor {α : Type} [LinearOrderedField α] [FloorRing α] (x : α) : Int := Int.floor x

/-- Modelled from the spec: `dot(g, x, y)` (declared in the header, body absent), §4.1:
inner product of a gradient row with a 2D displacement (the z-component is ignored). -/
def dot2 {α : Type} [LinearOrderedField α] (g : List Int) (x y : α) : α :=
  ((g.getD 0 0 : Int) : α) * x + ((g.getD 1 0 : Int) : α) * y

/-- Modelled from the spec: `dot(g, x, y, z)` (declared in the header, body absent). -/
def dot3 {α : Type} [LinearOrderedField α] (g : List Int) (x y z : α) : α :=
  ((g.getD 0 0 : Int) : α) * x + ((g.getD 1 0 : Int) : α) * y + ((g.getD 2 0 : Int) : α) * z

/-- Modelled from the spec: `dot(g, x, y, z, w)` (declared in the header, body absent). -/
def dot4 {α : Type} [LinearOrderedField α] (g : List Int) (x y z w : α) : α :=
  ((g.getD 0 0 : Int) : α) * x + ((g.getD 1 0 : Int) : α) * y + ((g.getD 2 0 : Int) : α) * z +
    ((g.getD 3 0 : Int) : α) * w

/-- Modelled from the spec: `n & 255` on a (two's complement) machine integer, i.e. the
residue of `n` modulo 256 in 0..255, as used by the gradient-index formulas. -/
def and255 (n : Int) : Nat := (n % 256).toNat

/-- Modelled from the spec: 2D gradient index `P[(I + P[J & 255]) & 255] mod 12`
(§4.2 step 4). -/
def gradIndex2 (I J : Int) : Nat := permAt (and255 (I + permAt (and255 J))) % 12

/-- Modelled from the spec: 3D gradient index
`P[(I + P[(J + P[K & 255]) & 255]) & 255] mod 12` (§4.3). -/
def gradIndex3 (I J K : Int) : Nat :=
  permAt (and255 (I + permAt (and255 (J + permAt (and255 K))))) % 12

/-- Modelled from the spec: 4D gradient index, the same nesting with one more level,
taken modulo 32 (§4.3). -/
def gradIndex4 (I J K L : Int) : Nat :=
  permAt (and255 (I + permAt (and255 (J + permAt (and255 (K + permAt (and255 L))))))) % 32

/-- Modelled from the spec: contribution of one 2D corner at lattice cell `(I, J)` with
displacement `(cx, cy)` (§4.2 step 5): with `r = 0.5 − cx² − cy²`, it is 0 if `r < 0` and
`r⁴ · dot(g, cx, cy)` otherwise. -/
def corner2 {α : Type} [LinearOrderedField α] (cx cy : α) (I J : Int) : α :=
  let r := 1 / 2 - cx * cx - cy * cy
  if r < 0 then 0 else r ^ 4 * dot2 (grad3Row (gradIndex2 I J)) cx cy

/-- Modelled from the spec: contribution of one 3D corner (§4.3):
`max(0, 0.6 − cx² − cy² − cz²)⁴ · dot(g, cx, cy, cz)`. -/
def corner3 {α : Type} [LinearOrderedField α] (cx cy cz : α) (I J K : Int) : α :=
  (max 0 (6 / 10 - cx * cx - cy * cy - cz * cz)) ^ 4 *
    dot3 (grad3Row (gradIndex3 I J K)) cx cy cz

/-- Modelled from the spec: contribution of one 4D corner (§4.3): threshold 0.6,
exponent 4, gradient row of `grad4`. -/
def corner4 {α : Type} [LinearOrderedField α] (cx cy cz cw : α) (I J K L : Int) : α :=
  (max 0 (6 / 10 - cx * cx - cy * cy - cz * cz - cw * cw)) ^ 4 *
    dot4 (grad4Row (gradIndex4 I J K L)) cx cy cz cw

/-- Modelled from the spec: `raw_noise_2d` (declared in the header, body absent), §4.2
steps 1–6.  `sqrt3` stands for `√3`. -/
def raw_noise_2d {α : Type} [LinearOrderedField α] [FloorRing α] (sqrt3 x y : α) : α :=
  let F2 := (sqrt3 - 1) / 2
  let G2 := (3 - sqrt3) / 6
  let s := (x + y) * F2
  let i := fastfloor (x + s)
  let j := fastfloor (y + s)
  let t := ((i + j : Int) : α) * G2
  let X0 := (i : α) - t
  let Y0 := (j : α) - t
  let x0 := x - X0
  let y0 := y - Y0
  let i1 : Int := if x0 > y0 then 1 else 0
  let j1 : Int := if x0 > y0 then 0 else 1
  let n0 := corner2 x0 y0 i j
  let n1 := corner2 (x0 - (i1 : α) + G2) (y0 - (j1 : α) + G2) (i + i1) (j + j1)
  let n2 := corner2 (x0 - 1 + 2 * G2) (y0 - 1 + 2 * G2) (i + 1) (j + 1)
  70 * (n0 + n1 + n2)

/-- Modelled from the spec: the 3D corner-ordering table of §4.3, read top to bottom;
the result is `((i1, j1, k1), (i2, j2, k2))`. -/
def order3 {α : Type} [LinearOrder α] (x0 y0 z0 : α) : (Int × Int × Int) × (Int × Int × Int) :=
  if x0 ≥ y0 ∧ y0 ≥ z0 then ((1, 0, 0), (1, 1, 0))
  else if x0 ≥ z0 ∧ z0 > y0 then ((1, 0, 0), (1, 0, 1))
  else if z0 > x0 ∧ x0 ≥ y0 then ((0, 0, 1), (1, 0, 1))
  else if x0 < y0 ∧ y0 < z0 then ((0, 0, 1), (0, 1, 1))
  else if x0 < y0 ∧ x0 < z0 ∧ z0 ≤ y0 then ((0, 1, 0), (0, 1, 1))
  else ((0, 1, 0), (1, 1, 0))

/-- Modelled from the spec: `raw_noise_3d` (declared in the header, body absent), §4.3:
`F = 1/3`, `G = 1/6`, four corners with cumulative unskew `0, G, 2G, 3G − 1`, scale 32. -/
def raw_noise_3d {α : Type} [LinearOrderedField α] [FloorRing α] (x y z : α) : α :=
  let F3 : α := 1 / 3
  let G3 : α := 1 / 6
  let s := (x + y + z) * F3
  let i := fastfloor (x + s)
  let j := fastfloor (y + s)
  let k := fastfloor (z + s)
  let t := ((i + j + k : Int) : α) * G3
  let x0 := x - ((i : α) - t)
  let y0 := y - ((j : α) - t)
  let z0 := z - ((k : α) - t)
  let o := order3 x0 y0 z0
  let i1 := o.1.1
  let j1 := o.1.2.1
  let k1 := o.1.2.2
  let i2 := o.2.1
  let j2 := o.2.2.1
  let k2 := o.2.2.2
  let n0 := corner3 x0 y0 z0 i j k
  let n1 := corner3 (x0 - (i1 : α) + G3) (y0 - (j1 : α) + G3) (z0 - (k1 : α) + G3)
    (i + i1) (j + j1) (k + k1)
  let n2 := corner3 (x0 - (i2 : α) + 2 * G3) (y0 - (j2 : α) + 2 * G3) (z0 - (k2 : α) + 2 * G3)
    (i + i2) (j + j2) (k + k2)
  let n3 := corner3 (x0 - 1 + 3 * G3) (y0 - 1 + 3 * G3) (z0 - 1 + 3 * G3) (i + 1) (j + 1) (k + 1)
  32 * (n0 + n1 + n2 + n3)

/-- Modelled from the spec: the 4D corner offset along axis `a` for threshold `t`,
`(axis_rank ≥ threshold)` read off row `simplex[c]` (§4.3). -/
def stepAt (c a t : Nat) : Int := if simplexAt c a ≥ t then 1 else 0

/-- Modelled from the spec: `raw_noise_4d` (declared in the header, body absent), §4.3:
`F = (√5−1)/4`, `G = (5−√5)/20`, corners 1..3 from thresholds 3, 2, 1 on row
`simplex[c]`, corner 4 = `(1,1,1,1)`, cumulative unskew `0, G, 2G, 3G, 4G − 1`, scale 27.
`sqrt5` stands for `√5`. -/
def raw_noise_4d {α : Type} [LinearOrderedField α] [FloorRing α] (sqrt5 x y z w : α) : α :=
  let F4 := (sqrt5 - 1) / 4
  let G4 := (5 - sqrt5) / 20
  let s := (x + y + z + w) * F4
  let i := fastfloor (x + s)
  let j := fastfloor (y + s)
  let k := fastfloor (z + s)
  let l := fastfloor (w + s)
  let t := ((i + j + k + l : Int) : α) * G4
  let x0 := x - ((i : α) - t)
  let y0 := y - ((j : α) - t)
  let z0 := z - ((k : α) - t)
  let w0 := w - ((l : α) - t)
  let c := mask4 x0 y0 z0 w0
  let n0 := corner4 x0 y0 z0 w0 i j k l
  let n1 := corner4 (x0 - (stepAt c 0 3 : α) + G4) (y0 - (stepAt c 1 3 : α) + G4)
    (z0 - (stepAt c 2 3 : α) + G4) (w0 - (stepAt c 3 3 : α) + G4)
    (i + stepAt c 0 3) (j + stepAt c 1 3) (k + stepAt c 2 3) (l + stepAt c 3 3)
  let n2 := corner4 (x0 - (stepAt c 0 2 : α) + 2 * G4) (y0 - (stepAt c 1 2 : α) + 2 * G4)
    (z0 - (stepAt c 2 2 : α) + 2 * G4) (w0 - (stepAt c 3 2 : α) + 2 * G4)
    (i + stepAt c 0 2) (j + stepAt c 1 2) (k + stepAt c 2 2) (l + stepAt c 3 2)
  let n3 := corner4 (x0 - (stepAt c 0 1 : α) + 3 * G4) (y0 - (stepAt c 1 1 : α) + 3 * G4)
    (z0 - (stepAt c 2 1 : α) + 3 * G4) (w0 - (stepAt c 3 1 : α) + 3 * G4)
    (i + stepAt c 0 1) (j + stepAt c 1 1) (k + stepAt c 2 1) (l + stepAt c 3 1)
  let n4 := corner4 (x0 - 1 + 4 * G4) (y0 - 1 + 4 * G4) (z0 - 1 + 4 * G4) (w0 - 1 + 4 * G4)
    (i + 1) (j + 1) (k + 1) (l + 1)
  27 * (n0 + n1 + n2 + n3 + n4)

/-! ## Floor by truncation -/

/-- Modelled from the spec: truncation toward zero, the conversion `(int) x` that §4.1
refers to as "the truncation" (the body of `fastfloor` is not in the header). -/
def truncToInt {α : Type} [LinearOrderedField α] [FloorRing α] (x : α) : Int :=
  if 0 ≤ x then Int.floor x else Int.ceil x

/-- Modelled from the spec: the implementation of `fastfloor` that §4.1 describes,
"subtract 1 from the truncation when x is negative and non-integer". -/
def fastfloorTrunc {α : Type} [LinearOrderedField α] [FloorRing α] (x : α) : Int :=
  if x < 0 ∧ ((truncToInt x : Int) : α) ≠ x then truncToInt x - 1 else truncToInt x

/-! ## The 3D ladder and the rank sort -/

/-- Modelled from the spec: the "Condition" column of the 3D corner-ordering table of
§4.3, one Boolean per row, in table order. -/
def ladderConds {α : Type} [LinearOrder α] (x0 y0 z0 : α) : List Bool :=
  [decide (x0 ≥ y0 ∧ y0 ≥ z0), decide (x0 ≥ z0 ∧ z0 > y0), decide (z0 > x0 ∧ x0 ≥ y0),
   decide (x0 < y0 ∧ y0 < z0), decide (x0 < y0 ∧ x0 < z0 ∧ z0 ≤ y0),
   decide (x0 < y0 ∧ z0 ≤ x0)]

/-- Modelled from the spec: the offset columns `((i1,j1,k1), (i2,j2,k2))` of the same
table, in table order. -/
def ladderOffsets : List ((Int × Int × Int) × (Int × Int × Int)) :=
  [((1, 0, 0), (1, 1, 0)), ((1, 0, 0), (1, 0, 1)), ((0, 0, 1), (1, 0, 1)),
   ((0, 0, 1), (0, 1, 1)), ((0, 1, 0), (0, 1, 1)), ((0, 1, 0), (1, 1, 0))]

/-- Axis `b` (value `vb`) ranks above axis `a` (value `va`): its value is larger, or
the values tie and `b` is the earlier axis. -/
def ranksAbove {α : Type} [LinearOrder α] (vb va : α) (b a : Nat) : Bool :=
  decide (vb > va) || (decide (vb = va) && decide (b < a))

/-- Position of axis `a` (0 = x, 1 = y, 2 = z) in the rank sort of the three values:
the number of axes that rank above it. -/
def place3 {α : Type} [LinearOrder α] (x0 y0 z0 : α) (a : Nat) : Nat :=
  let v := [x0, y0, z0]
  ((List.range 3).filter (fun b => ranksAbove (v.getD b x0) (v.getD a x0) b a)).length

/-- Indicator of a Boolean as a machine integer. -/
def ind (b : Bool) : Int := if b then 1 else 0

/-- The corner offsets obtained from a rank sort of the three values, as the spec's
design note words it: `(i1,j1,k1)` is the unit vector of the top-ranked axis and
`(i2,j2,k2)` the sum of the unit vectors of the two top-ranked axes. -/
def rankSort3 {α : Type} [LinearOrder α] (x0 y0 z0 : α) : (Int × Int × Int) × (Int × Int × Int) :=
  ((ind (place3 x0 y0 z0 0 == 0), ind (place3 x0 y0 z0 1 == 0), ind (place3 x0 y0 z0 2 == 0)),
   (ind (decide (place3 x0 y0 z0 0 ≤ 1)), ind (decide (place3 x0 y0 z0 1 ≤ 1)),
    ind (decide (place3 x0 y0 z0 2 ≤ 1))))

/-! ## Ranks with ties -/

/-- Number of entries of `l` (the coordinates of the earlier axes) equal to `t`. -/
def numTied {α : Type} [LinearOrder α] (l : List α) (t : α) : Nat :=
  (l.filter (fun b => decide (b = t))).length

/-! ## Octave composition -/

set_option maxRecDepth 1000000

/-! ## The permutation table -/

theorem perm_length : perm.length = 512 := by decide

theorem perm_second_half : perm.drop 256 = perm.take 256 := by decide!

theorem perm_count_check :
    (List.range 256).all (fun v => (perm.take 256).count v == 1) = true := by decide!

theorem perm_range_check : (perm.take 256).all (fun v => decide (v < 256)) = true := by
  decide!

theorem perm_count_one (v : Nat) (hv : v < 256) : (perm.take 256).count v = 1 := by
  have h := perm_count_check
  rw [List.all_eq_true] at h
  simpa using h v (List.mem_range.mpr hv)

theorem perm_entry_lt (v : Nat) (hv : v ∈ perm.take 256) : v < 256 := by
  have h := perm_range_check
  rw [List.all_eq_true] at h
  simpa using h v hv

theorem perm_wrap (i : Nat) (hi : i < 256) : perm[i + 256]? = perm[i]? := by
  have h1 : (perm.drop 256)[i]? = perm[i + 256]? := by
    rw [List.getElem?_drop, Nat.add_comm]
  have h2 : (perm.take 256)[i]? = perm[i]? := by rw [List.getElem?_take, if_pos hi]
  rw [← h1, ← h2, perm_second_half]

theorem perm_take_perm_range : (perm.take 256).Perm (List.range 256) := by
  rw [List.perm_iff_count]
  intro v
  by_cases hv : v < 256
  · rw [perm_count_one v hv]
    exact (List.count_eq_one_of_mem (List.nodup_range 256) (List.mem_range.mpr hv)).symm
  · have h1 : v ∉ perm.take 256 := fun h => hv (perm_entry_lt v h)
    have h2 : v ∉ List.range 256 := fun h => hv (List.mem_range.mp h)
    rw [List.count_eq_zero_of_not_mem h1, List.count_eq_zero_of_not_mem h2]

theorem perm_mod (k : Nat) (hk : k < 512) : perm[k]? = perm[k % 256]? := by
  by_cases h : k < 256
  · rw [Nat.mod_eq_of_lt h]
  · obtain ⟨i, rfl⟩ : ∃ i, k = i + 256 := ⟨k - 256, by omega⟩
    have hi : i < 256 := by omega
    rw [perm_wrap i hi, Nat.add_mod_right, Nat.mod_eq_of_lt hi]

theorem perm_get_low (j : Nat) (hj : j < 256) : ∃ p, p < 256 ∧ perm[j]? = some p := by
  have hlen : j < perm.length := by rw [perm_length]; omega
  have h2 : (perm.take 256)[j]? = perm[j]? := by rw [List.getElem?_take, if_pos hj]
  refine ⟨perm[j], ?_, List.getElem?_eq_getElem hlen⟩
  apply perm_entry_lt
  rw [List.mem_iff_getElem?]
  exact ⟨j, by rw [h2]; exact List.getElem?_eq_getElem hlen⟩

theorem perm_get (k : Nat) (hk : k < 512) : ∃ p, p < 256 ∧ perm[k]? = some p := by
  rw [perm_mod k hk]
  exact perm_get_low (k % 256) (Nat.mod_lt k (by decide))

theorem and_255 (n : Nat) : n &&& 255 = n % 256 := Nat.and_pow_two_sub_one_eq_mod n 8

/-- C1: the table `perm` has exactly 512 entries; its first 256 entries are a
permutation of 0..255 (every value of 0..255 occurs exactly once among them); and the
second half repeats the first, `perm[i + 256] = perm[i]` for every `i` in 0..255. -/
theorem perm_is_doubled_permutation :
    perm.length = 512 ∧
    (perm.take 256).Perm (List.range 256) ∧
    (∀ v, v < 256 → (perm.take 256).count v = 1) ∧
    (∀ i, i < 256 → perm[i + 256]? = perm[i]? ∧ (perm[i]?).isSome = true) := by
  refine ⟨perm_length, perm_take_perm_range, perm_count_one, ?_⟩
  intro i hi
  obtain ⟨p, -, hp⟩ := perm_get_low i hi
  refine ⟨perm_wrap i hi, ?_⟩
  rw [hp]; rfl

/-! ## The simplex traversal table and the comparison mask -/

theorem mask4_lt (x y z w : ℝ) : mask4 x y z w < 64 := by
  unfold mask4
  split_ifs <;> omega

set_option maxHeartbeats 1000000 in
theorem simplexRow_mask4_perm (x y z w : ℝ) :
    (simplexRow (mask4 x y z w)).Perm [0, 1, 2, 3] := by
  unfold mask4
  by_cases h1 : x > y <;> by_cases h2 : x > z <;> by_cases h3 : y > z <;>
  by_cases h4 : x > w <;> by_cases h5 : y > w <;> by_cases h6 : z > w <;>
  simp only [h1, h2, h3, h4, h5, h6, if_true, if_false] <;>
  first
  | decide
  | (exfalso; linarith)

theorem mask4_natCast (a b c d : Nat) :
    mask4 (a : ℝ) (b : ℝ) (c : ℝ) (d : ℝ) = mask4 a b c d := by
  simp [mask4]

theorem simplex_rows_check :
    ∀ c, c < 64 → simplexRow c = [0, 0, 0, 0] ∨
      (simplexAt c 0 ≠ simplexAt c 1 ∧ simplexAt c 0 ≠ simplexAt c 2 ∧
        simplexAt c 0 ≠ simplexAt c 3 ∧ simplexAt c 1 ≠ simplexAt c 2 ∧
        simplexAt c 1 ≠ simplexAt c 3 ∧ simplexAt c 2 ≠ simplexAt c 3 ∧
        mask4 (simplexAt c 0) (simplexAt c 1) (simplexAt c 2) (simplexAt c 3) = c) := by
  decide

/-- C2: for every mask `c` in 0..63, if `c` is the comparison mask of some four
pairwise-distinct reals then row `simplex[c]` is a permutation of 0,1,2,3; otherwise
(no strict ordering has mask `c`) the row is `(0,0,0,0)`. -/
theorem simplex_row_perm_or_zero (c : Nat) (hc : c < 64) :
    (IsStrictMask c → (simplexRow c).Perm [0, 1, 2, 3]) ∧
    (¬ IsStrictMask c → simplexRow c = [0, 0, 0, 0]) := by
  constructor
  · rintro ⟨x, y, z, w, -, -, -, -, -, -, rfl⟩
    exact simplexRow_mask4_perm x y z w
  · intro hno
    rcases simplex_rows_check c hc with h0 | ⟨h01, h02, h03, h12, h13, h23, hm⟩
    · exact h0
    · refine absurd ?_ hno
      refine ⟨(simplexAt c 0 : ℝ), (simplexAt c 1 : ℝ), (simplexAt c 2 : ℝ),
        (simplexAt c 3 : ℝ), ?_, ?_, ?_, ?_, ?_, ?_, ?_⟩
      · exact_mod_cast h01
      · exact_mod_cast h02
      · exact_mod_cast h03
      · exact_mod_cast h12
      · exact_mod_cast h13
      · exact_mod_cast h23
      · rw [mask4_natCast]; exact hm

/-- Witness for C2 at the mask `c = 30` (row `(2,3,0,1)`). -/
theorem simplex_row_perm_or_zero_witness :
    (30 < 64) ∧ ((IsStrictMask 30 → (simplexRow 30).Perm [0, 1, 2, 3]) ∧
      (¬ IsStrictMask 30 → simplexRow 30 = [0, 0, 0, 0])) :=
  ⟨by decide, simplex_row_perm_or_zero 30 (by decide)⟩

/-- Counterexample to C3 as stated: at `(x0,y0,z0,w0) = (0,1,2,3)` the mask is 0 and the
row is `(0,1,2,3)`, so the entry of the x axis is 0 although three coordinates are
strictly greater than `x0`: the entries are not "number of strictly greater
coordinates". -/
theorem simplex_rank_descending_fails :
    ¬ (simplexAt (mask4 (0 : ℝ) 1 2 3) 0 = numGreater (0 : ℝ) 1 2 3 0 ∧
       simplexAt (mask4 (0 : ℝ) 1 2 3) 1 = numGreater (0 : ℝ) 1 2 3 1 ∧
       simplexAt (mask4 (0 : ℝ) 1 2 3) 2 = numGreater (0 : ℝ) 1 2 3 2 ∧
       simplexAt (mask4 (0 : ℝ) 1 2 3) 3 = numGreater (0 : ℝ) 1 2 3 3) := by
  have hm : mask4 (0 : ℝ) 1 2 3 = 0 := by norm_num [mask4]
  have hg : numGreater (0 : ℝ) 1 2 3 0 = 3 := by norm_num [numGreater, List.filter]
  rw [hm, hg]
  decide

set_option maxHeartbeats 4000000 in
/-- C3 (amended): for four pairwise-distinct reals with comparison mask `c`, row
`simplex[c]` gives each axis its rank with 0 = smallest and 3 = largest: the entry of
axis `a` is the number of coordinates strictly less than coordinate `a`. -/
theorem simplex_rank_ascending (x y z w : ℝ) (hxy : x ≠ y) (hxz : x ≠ z) (hxw : x ≠ w)
    (hyz : y ≠ z) (hyw : y ≠ w) (hzw : z ≠ w) :
    simplexAt (mask4 x y z w) 0 = numLess x y z w x ∧
    simplexAt (mask4 x y z w) 1 = numLess x y z w y ∧
    simplexAt (mask4 x y z w) 2 = numLess x y z w z ∧
    simplexAt (mask4 x y z w) 3 = numLess x y z w w := by
  rcases lt_or_gt_of_ne hxy with h1 | h1 <;> rcases lt_or_gt_of_ne hxz with h2 | h2 <;>
  rcases lt_or_gt_of_ne hxw with h3 | h3 <;> rcases lt_or_gt_of_ne hyz with h4 | h4 <;>
  rcases lt_or_gt_of_ne hyw with h5 | h5 <;> rcases lt_or_gt_of_ne hzw with h6 | h6 <;>
  first
  | (exfalso; linarith)
  | (simp [mask4, numLess, List.filter, h1, h2, h3, h4, h5, h6, h1.not_lt, h2.not_lt, h3.not_lt,
      h4.not_lt, h5.not_lt, h6.not_lt]; decide)

/-- Witness for C3 (amended) at `(x0,y0,z0,w0) = (1/2, −1, 2, 1/4)`. -/
theorem simplex_rank_ascending_witness :
    simplexAt (mask4 (1/2 : ℝ) (-1) 2 (1/4)) 0 = numLess (1/2 : ℝ) (-1) 2 (1/4) (1/2) ∧
    simplexAt (mask4 (1/2 : ℝ) (-1) 2 (1/4)) 1 = numLess (1/2 : ℝ) (-1) 2 (1/4) (-1) ∧
    simplexAt (mask4 (1/2 : ℝ) (-1) 2 (1/4)) 2 = numLess (1/2 : ℝ) (-1) 2 (1/4) 2 ∧
    simplexAt (mask4 (1/2 : ℝ) (-1) 2 (1/4)) 3 = numLess (1/2 : ℝ) (-1) 2 (1/4) (1/4) :=
  simplex_rank_ascending (1/2) (-1) 2 (1/4) (by norm_num) (by norm_num) (by norm_num)
    (by norm_num) (by norm_num) (by norm_num)

/-- C4: for all reals `x0, y0, z0, w0`, ties included, the mask of the six strict
comparisons is below 64 and indexes a row of `simplex` that is a permutation of
0,1,2,3; a `(0,0,0,0)` row is never the one selected. -/
theorem mask4_row_never_zero (x y z w : ℝ) :
    mask4 x y z w < 64 ∧ (simplexRow (mask4 x y z w)).Perm [0, 1, 2, 3] ∧
      simplexRow (mask4 x y z w) ≠ [0, 0, 0, 0] := by
  refine ⟨mask4_lt x y z w, simplexRow_mask4_perm x y z w, ?_⟩
  intro h0
  have hp := simplexRow_mask4_perm x y z w
  rw [h0] at hp
  exact absurd hp (by decide)

/-! ## The gradient tables -/

/-- C5: `grad4` has 32 rows; for every block `b` in 0..3 and bits `s0, s1, s2`, row
`8b + 4·s0 + 2·s1 + s2` has four components, a 0 at coordinate `b`, and the remaining
three coordinates in axis order are `(1−2·s0, 1−2·s1, 1−2·s2)`; and every 4-vector with
exactly one zero coordinate and ±1 elsewhere occurs in `grad4` exactly once. -/
theorem grad4_layout :
    grad4.length = 32 ∧
    (∀ b, b < 4 → ∀ s0, s0 < 2 → ∀ s1, s1 < 2 → ∀ s2, s2 < 2 →
      (grad4Row (8 * b + 4 * s0 + 2 * s1 + s2)).length = 4 ∧
      (grad4Row (8 * b + 4 * s0 + 2 * s1 + s2)).getD b 1 = 0 ∧
      (grad4Row (8 * b + 4 * s0 + 2 * s1 + s2)).eraseIdx b =
        [1 - 2 * (s0 : Int), 1 - 2 * (s1 : Int), 1 - 2 * (s2 : Int)]) ∧
    (∀ a b c d : Int, (a = -1 ∨ a = 0 ∨ a = 1) → (b = -1 ∨ b = 0 ∨ b = 1) →
      (c = -1 ∨ c = 0 ∨ c = 1) → (d = -1 ∨ d = 0 ∨ d = 1) →
      [a, b, c, d].count 0 = 1 → grad4.count [a, b, c, d] = 1) := by
  refine ⟨by decide, by decide, ?_⟩
  intro a b c d ha hb hc hd
  rcases ha with rfl | rfl | rfl <;> rcases hb with rfl | rfl | rfl <;>
  rcases hc with rfl | rfl | rfl <;> rcases hd with rfl | rfl | rfl <;> decide

/-- C6: `grad3` has 12 rows; every row has 3 components, each in {−1, 0, 1}, with
exactly one zero; the rows are pairwise distinct; and every vector of {−1,0,1}³ with
exactly one zero occurs in `grad3` exactly once (the 12 edge midpoints of the cube). -/
theorem grad3_layout :
    grad3.length = 12 ∧
    (∀ r ∈ grad3, r.length = 3 ∧ (∀ v ∈ r, v = -1 ∨ v = 0 ∨ v = 1) ∧ r.count 0 = 1) ∧
    grad3.Nodup ∧
    (∀ a b c : Int, (a = -1 ∨ a = 0 ∨ a = 1) → (b = -1 ∨ b = 0 ∨ b = 1) →
      (c = -1 ∨ c = 0 ∨ c = 1) → [a, b, c].count 0 = 1 → grad3.count [a, b, c] = 1) := by
  refine ⟨by decide, by decide, by decide, ?_⟩
  intro a b c ha hb hc
  rcases ha with rfl | rfl | rfl <;> rcases hb with rfl | rfl | rfl <;>
  rcases hc with rfl | rfl | rfl <;> decide

/-! ## Modulo-free indexing of `perm` -/

/-- C7: for all `i, j` in 0..255 the sum `i + j` is a valid index of `perm` and
`perm[i + j] = perm[(i + j) mod 256]`; in particular, for `I, J` in 0..255 the
modulo-free lookup `perm[I + perm[J]]` is defined and equals the masked lookup
`perm[(I + perm[J & 255]) & 255]`. -/
theorem perm_index_sum_no_modulo :
    (∀ i j : Nat, i ≤ 255 → j ≤ 255 →
      i + j < perm.length ∧ perm[i + j]? = perm[(i + j) % 256]? ∧
        (perm[i + j]?).isSome = true) ∧
    (∀ I J : Nat, I ≤ 255 → J ≤ 255 →
      permLookup2 I J = permLookup2Masked I J ∧ (permLookup2 I J).isSome = true) := by
  constructor
  · intro i j hi hj
    have hk : i + j < 512 := by omega
    obtain ⟨p, -, hp⟩ := perm_get (i + j) hk
    refine ⟨by rw [perm_length]; exact hk, perm_mod _ hk, ?_⟩
    rw [hp]; rfl
  · intro I J hI hJ
    obtain ⟨p, hp, hpJ⟩ := perm_get_low J (by omega)
    have hk : I + p < 512 := by omega
    obtain ⟨q, -, hq⟩ := perm_get (I + p) hk
    have hJm : J &&& 255 = J := by rw [and_255]; exact Nat.mod_eq_of_lt (by omega)
    have h1 : permLookup2 I J = some q := by simp [permLookup2, hpJ, hq]
    have h2 : permLookup2Masked I J = some q := by
      simp only [permLookup2Masked, hJm, hpJ, and_255, Option.bind_eq_bind, Option.some_bind]
      rw [← perm_mod _ hk, hq]
    rw [h1, h2]; exact ⟨rfl, rfl⟩

/-! ## Values of the raw noise -/

theorem corner2_origin {α : Type} [LinearOrderedField α] (I J : Int) :
    corner2 (0 : α) 0 I J = 0 := by
  simp [corner2, dot2]

theorem corner2_far {α : Type} [LinearOrderedField α] (cx cy : α) (I J : Int)
    (h : 1 / 2 < cx * cx + cy * cy) : corner2 cx cy I J = 0 := by
  have hr : 1 / 2 - cx * cx - cy * cy < 0 := by linarith
  simp only [corner2, if_pos hr]

theorem corner3_origin {α : Type} [LinearOrderedField α] (I J K : Int) :
    corner3 (0 : α) 0 0 I J K = 0 := by
  simp [corner3, dot3]

theorem corner3_far {α : Type} [LinearOrderedField α] (cx cy cz : α) (I J K : Int)
    (h : 6 / 10 ≤ cx * cx + cy * cy + cz * cz) : corner3 cx cy cz I J K = 0 := by
  have hr : 6 / 10 - cx * cx - cy * cy - cz * cz ≤ 0 := by linarith
  simp only [corner3, max_eq_left hr]
  simp

theorem corner4_origin {α : Type} [LinearOrderedField α] (I J K L : Int) :
    corner4 (0 : α) 0 0 0 I J K L = 0 := by
  simp [corner4, dot4]

theorem corner4_far {α : Type} [LinearOrderedField α] (cx cy cz cw : α) (I J K L : Int)
    (h : 6 / 10 ≤ cx * cx + cy * cy + cz * cz + cw * cw) : corner4 cx cy cz cw I J K L = 0 := by
  have hr : 6 / 10 - cx * cx - cy * cy - cz * cz - cw * cw ≤ 0 := by linarith
  simp only [corner4, max_eq_left hr]
  simp

theorem raw_noise_2d_origin : raw_noise_2d (Real.sqrt 3) 0 0 = 0 := by
  have hs : Real.sqrt 3 * Real.sqrt 3 = 3 := Real.mul_self_sqrt (by norm_num)
  have h0 : 0 ≤ Real.sqrt 3 := Real.sqrt_nonneg 3
  have hlt : Real.sqrt 3 < 2 := by nlinarith
  simp only [raw_noise_2d, fastfloor, add_zero, zero_mul, Int.floor_zero, Int.cast_zero, sub_zero,
    sub_self, gt_iff_lt, lt_irrefl, if_false, zero_add, zero_sub, Int.cast_one]
  rw [corner2_origin, corner2_far, corner2_far]
  · norm_num
  · nlinarith
  · nlinarith

theorem raw_noise_3d_origin : raw_noise_3d (0 : ℝ) 0 0 = 0 := by
  have ho : order3 (0 : ℝ) 0 0 = ((1, 0, 0), (1, 1, 0)) := by simp [order3]
  simp only [raw_noise_3d, fastfloor, add_zero, zero_mul, Int.floor_zero, Int.cast_zero, sub_zero,
    sub_self, zero_add, zero_sub, Int.cast_one, ho]
  rw [corner3_origin, corner3_far, corner3_far, corner3_far]
  · norm_num
  · norm_num
  · norm_num
  · norm_num

theorem raw_noise_4d_origin : raw_noise_4d (Real.sqrt 5) 0 0 0 0 = 0 := by
  have hs : Real.sqrt 5 * Real.sqrt 5 = 5 := Real.mul_self_sqrt (by norm_num)
  have h0 : 0 ≤ Real.sqrt 5 := Real.sqrt_nonneg 5
  have hm : mask4 (0 : ℝ) 0 0 0 = 0 := by simp [mask4]
  have e03 : stepAt 0 0 3 = 0 := by decide
  have e13 : stepAt 0 1 3 = 0 := by decide
  have e23 : stepAt 0 2 3 = 0 := by decide
  have e33 : stepAt 0 3 3 = 1 := by decide
  have e02 : stepAt 0 0 2 = 0 := by decide
  have e12 : stepAt 0 1 2 = 0 := by decide
  have e22 : stepAt 0 2 2 = 1 := by decide
  have e32 : stepAt 0 3 2 = 1 := by decide
  have e01 : stepAt 0 0 1 = 0 := by decide
  have e11 : stepAt 0 1 1 = 1 := by decide
  have e21 : stepAt 0 2 1 = 1 := by decide
  have e31 : stepAt 0 3 1 = 1 := by decide
  simp only [raw_noise_4d, fastfloor, add_zero, zero_mul, Int.floor_zero, Int.cast_zero, sub_zero,
    sub_self, zero_add, zero_sub, Int.cast_one, hm, e03, e13, e23, e33, e02, e12, e22, e32,
    e01, e11, e21, e31]
  rw [corner4_origin, corner4_far, corner4_far, corner4_far, corner4_far]
  · norm_num
  · nlinarith
  · nlinarith
  · nlinarith
  · nlinarith

/-- C8: the raw noise is zero at the origin in every dimension:
`raw_noise_2d(0,0) = 0`, `raw_noise_3d(0,0,0) = 0` and `raw_noise_4d(0,0,0,0) = 0`
(in exact arithmetic, with `√3` and `√5` the real square roots). -/
theorem raw_noise_zero_at_origin :
    raw_noise_2d (Real.sqrt 3) 0 0 = 0 ∧
    raw_noise_3d (0 : ℝ) 0 0 = 0 ∧
    raw_noise_4d (Real.sqrt 5) 0 0 0 0 = 0 :=
  ⟨raw_noise_2d_origin, raw_noise_3d_origin, raw_noise_4d_origin⟩

theorem raw_noise_3d_lattice_value : raw_noise_3d (1 : ℝ) 2 3 = 0 := by
  have hi : fastfloor ((1 : ℝ) + (1 + 2 + 3) * (1 / 3)) = 3 := by
    norm_num [fastfloor]
  have hj : fastfloor ((2 : ℝ) + (1 + 2 + 3) * (1 / 3)) = 4 := by
    norm_num [fastfloor]
  have hk : fastfloor ((3 : ℝ) + (1 + 2 + 3) * (1 / 3)) = 5 := by
    norm_num [fastfloor]
  have hx : (1 : ℝ) - (((3 : Int) : ℝ) - (((3 + 4 + 5 : Int)) : ℝ) * (1 / 6)) = 0 := by norm_num
  have hy : (2 : ℝ) - (((4 : Int) : ℝ) - (((3 + 4 + 5 : Int)) : ℝ) * (1 / 6)) = 0 := by norm_num
  have hz : (3 : ℝ) - (((5 : Int) : ℝ) - (((3 + 4 + 5 : Int)) : ℝ) * (1 / 6)) = 0 := by norm_num
  have ho : order3 (0 : ℝ) 0 0 = ((1, 0, 0), (1, 1, 0)) := by simp [order3]
  simp only [raw_noise_3d, hi, hj, hk, hx, hy, hz, ho, Int.cast_one, Int.cast_zero, zero_sub,
    sub_zero, zero_add]
  rw [corner3_origin, corner3_far, corner3_far, corner3_far]
  · norm_num
  · norm_num
  · norm_num
  · norm_num

/-- Counterexample to C9 as stated: `raw_noise_3d(1, 2, 3)` is not within `1e-4` of
`0.1833`. -/
theorem raw_noise_3d_reference_not_01833 :
    ¬ |raw_noise_3d (1 : ℝ) 2 3 - 1833 / 10000| ≤ 1 / 10000 := by
  rw [raw_noise_3d_lattice_value]
  norm_num [abs_le]

/-- C9 (amended): with the canonical tables and the 3D algorithm of the spec,
`raw_noise_3d(1.0, 2.0, 3.0)` equals 0: the point skews to the lattice point `(3,4,5)`,
so the first corner has zero displacement and the three others lie outside the falloff
radius. -/
theorem raw_noise_3d_reference_is_zero : raw_noise_3d (1 : ℝ) 2 3 = 0 :=
  raw_noise_3d_lattice_value

theorem sqrt3_bounds :
    (17320508 / 10000000 : ℝ) < Real.sqrt 3 ∧ Real.sqrt 3 < 17320509 / 10000000 := by
  constructor
  · rw [Real.lt_sqrt (by norm_num)]; norm_num
  · rw [Real.sqrt_lt' (by norm_num)]; norm_num

theorem raw_noise_2d_half_half :
    raw_noise_2d (Real.sqrt 3) (1 / 2) (1 / 2) = 560 / 243 * (180 - 104 * Real.sqrt 3) := by
  have hs : Real.sqrt 3 * Real.sqrt 3 = 3 := Real.mul_self_sqrt (by norm_num)
  obtain ⟨hlo, hhi⟩ := sqrt3_bounds
  have hf : fastfloor ((1 / 2 : ℝ) + (1 / 2 + 1 / 2) * ((Real.sqrt 3 - 1) / 2)) = 0 := by
    rw [fastfloor, Int.floor_eq_iff]
    constructor
    · norm_num; linarith
    · norm_num; linarith
  have hg : gradIndex2 1 1 = 8 := by decide
  have hrow : grad3Row 8 = [0, 1, 1] := by decide
  have h0 : corner2 (1 / 2 : ℝ) (1 / 2) 0 0 = 0 := by
    have hr : (1 / 2 : ℝ) - 1 / 2 * (1 / 2) - 1 / 2 * (1 / 2) = 0 := by norm_num
    simp only [corner2, hr, lt_irrefl, if_false]
    norm_num
  have h1 : corner2 ((1 / 2 : ℝ) + (3 - Real.sqrt 3) / 6)
      ((1 / 2 : ℝ) - 1 + (3 - Real.sqrt 3) / 6) 0 1 = 0 := by
    apply corner2_far
    nlinarith
  have h2 : corner2 ((1 / 2 : ℝ) - 1 + 2 * ((3 - Real.sqrt 3) / 6))
      ((1 / 2 : ℝ) - 1 + 2 * ((3 - Real.sqrt 3) / 6)) 1 1 =
      560 / 243 * (180 - 104 * Real.sqrt 3) / 70 := by
    have hr : (1 / 2 : ℝ) - ((1 / 2 : ℝ) - 1 + 2 * ((3 - Real.sqrt 3) / 6)) *
        ((1 / 2 : ℝ) - 1 + 2 * ((3 - Real.sqrt 3) / 6)) -
        ((1 / 2 : ℝ) - 1 + 2 * ((3 - Real.sqrt 3) / 6)) *
        ((1 / 2 : ℝ) - 1 + 2 * ((3 - Real.sqrt 3) / 6)) = (2 * Real.sqrt 3 - 2) / 3 := by
      linear_combination (-2 / 9 : ℝ) * hs
    have hnn : ¬ ((2 * Real.sqrt 3 - 2) / 3 < 0) := by
      rw [not_lt]; linarith
    have hp : ((2 * Real.sqrt 3 - 2) / 3) ^ 4 = (448 - 256 * Real.sqrt 3) / 81 := by
      have h2 : ((2 * Real.sqrt 3 - 2) / 3) ^ 2 = (16 - 8 * Real.sqrt 3) / 9 := by
        linear_combination (4 / 9 : ℝ) * hs
      have h4 : ((2 * Real.sqrt 3 - 2) / 3) ^ 4 = (((2 * Real.sqrt 3 - 2) / 3) ^ 2) ^ 2 := by ring
      rw [h4, h2]
      linear_combination (64 / 81 : ℝ) * hs
    simp only [corner2, hr, hnn, if_false, hp, hg, hrow, dot2]
    simp only [List.getD_cons_zero, List.getD_cons_succ, Int.cast_zero, Int.cast_one, zero_mul,
      zero_add, one_mul]
    linear_combination (256 / 243 : ℝ) * hs
  simp only [raw_noise_2d, hf, add_zero, Int.cast_zero, zero_mul, sub_zero, gt_iff_lt,
    lt_irrefl, if_false, Int.cast_one, zero_add]
  rw [h0, h1, h2]
  ring

/-- Counterexample to C10 as stated: `raw_noise_2d(0.5, 0.5)` is not within `1e-4` of
`0.7821`. -/
theorem raw_noise_2d_reference_not_07821 :
    ¬ |raw_noise_2d (Real.sqrt 3) (1 / 2) (1 / 2) - 7821 / 10000| ≤ 1 / 10000 := by
  obtain ⟨hlo, hhi⟩ := sqrt3_bounds
  rw [raw_noise_2d_half_half, abs_le]
  intro h
  linarith [h.1]

/-- C10 (amended): with the canonical tables and the 2D algorithm of the spec,
`raw_noise_2d(0.5, 0.5)` equals `(560/243)·(180 − 104·√3)`, which is `−0.3072` to within
`1e-4`. -/
theorem raw_noise_2d_reference_value :
    raw_noise_2d (Real.sqrt 3) (1 / 2) (1 / 2) = 560 / 243 * (180 - 104 * Real.sqrt 3) ∧
    |raw_noise_2d (Real.sqrt 3) (1 / 2) (1 / 2) - (-3072 / 10000)| ≤ 1 / 10000 := by
  obtain ⟨hlo, hhi⟩ := sqrt3_bounds
  refine ⟨raw_noise_2d_half_half, ?_⟩
  rw [raw_noise_2d_half_half, abs_le]
  constructor <;> linarith

/-! ## Corner offsets read off the simplex table -/

/-- C16: for every non-zero row of `simplex` and each threshold `t` in 3, 2, 1 the
offset vector `(r[a] ≥ t)` has exactly `4 − t` ones, and the offsets are nested
componentwise: corner 1 ≤ corner 2 ≤ corner 3 ≤ (1,1,1,1). -/
theorem simplex_offsets_nested (c : Nat) (hc : c < 64) (hr : simplexRow c ≠ [0, 0, 0, 0]) :
    (stepAt c 0 3 + stepAt c 1 3 + stepAt c 2 3 + stepAt c 3 3 = 1 ∧
     stepAt c 0 2 + stepAt c 1 2 + stepAt c 2 2 + stepAt c 3 2 = 2 ∧
     stepAt c 0 1 + stepAt c 1 1 + stepAt c 2 1 + stepAt c 3 1 = 3) ∧
    (∀ a, a < 4 → 0 ≤ stepAt c a 3 ∧ stepAt c a 3 ≤ stepAt c a 2 ∧
      stepAt c a 2 ≤ stepAt c a 1 ∧ stepAt c a 1 ≤ 1) := by
  revert c
  decide

/-- Witness for C16 at the mask `c = 30` (row `(2,3,0,1)`). -/
theorem simplex_offsets_nested_witness :
    (stepAt 30 0 3 + stepAt 30 1 3 + stepAt 30 2 3 + stepAt 30 3 3 = 1 ∧
     stepAt 30 0 2 + stepAt 30 1 2 + stepAt 30 2 2 + stepAt 30 3 2 = 2 ∧
     stepAt 30 0 1 + stepAt 30 1 1 + stepAt 30 2 1 + stepAt 30 3 1 = 3) ∧
    (∀ a, a < 4 → 0 ≤ stepAt 30 a 3 ∧ stepAt 30 a 3 ≤ stepAt 30 a 2 ∧
      stepAt 30 a 2 ≤ stepAt 30 a 1 ∧ stepAt 30 a 1 ≤ 1) :=
  simplex_offsets_nested 30 (by decide) (by decide)

/-! ## Gradient selection from `perm` -/

theorem and_31 (n : Nat) : n &&& 31 = n % 32 := Nat.and_pow_two_sub_one_eq_mod n 5

theorem perm_all_le : perm.all (fun v => decide (v ≤ 255)) = true := by decide!

/-- C17: every entry of `perm` lies in 0..255, and for every index `i` in 0..511 the
two forms of the 4D gradient index agree, `perm[i] & 31 = perm[i] % 32`, a value below
32 that indexes a (four-component) row of `grad4`. -/
theorem perm_low_bits_index_grad4 :
    (∀ v ∈ perm, v ≤ 255) ∧
    (∀ i, i < 512 → permAt i ≤ 255 ∧ permAt i &&& 31 = permAt i % 32 ∧
      permAt i % 32 < 32 ∧ (grad4Row (permAt i % 32)).length = 4) := by
  have hall : ∀ v ∈ perm, v ≤ 255 := by
    have h := perm_all_le
    rw [List.all_eq_true] at h
    intro v hv
    simpa using h v hv
  have hrows : ∀ g, g < 32 → (grad4Row g).length = 4 := by decide
  refine ⟨hall, ?_⟩
  intro i hi
  have hlen : i < perm.length := by rw [perm_length]; exact hi
  have hmem : permAt i ∈ perm := by
    rw [permAt, List.getD_eq_getElem perm 0 hlen]
    exact List.getElem_mem hlen
  exact ⟨hall _ hmem, and_31 _, Nat.mod_lt _ (by decide), hrows _ (Nat.mod_lt _ (by decide))⟩

theorem perm_first_period : (List.range 256).map permAt = perm.take 256 := by decide!

theorem perm_mod32_check :
    (List.range 32).all (fun g => (perm.take 256).countP (fun v => v % 32 == g) == 8) = true := by
  decide!

theorem perm_mod12_check :
    (List.range 12).all (fun g =>
      (perm.take 256).countP (fun v => v % 12 == g) == (if g < 4 then 22 else 21)) = true := by
  decide!

/-- C19: over one period of the permutation, every `g` below 32 is the value of
`perm[i] % 32` for exactly 8 indices `i` in 0..255; and every `g` below 12 is the value
of `perm[i] % 12` for 22 indices when `g < 4` and for 21 indices when `g ≥ 4`. -/
theorem perm_gradient_histogram :
    (∀ g, g < 32 → (List.range 256).countP (fun i => permAt i % 32 == g) = 8) ∧
    (∀ g, g < 12 → (List.range 256).countP (fun i => permAt i % 12 == g) =
      if g < 4 then 22 else 21) := by
  constructor
  · intro g hg
    have h := perm_mod32_check
    rw [List.all_eq_true] at h
    have h2 := h g (List.mem_range.mpr hg)
    rw [← perm_first_period, List.countP_map] at h2
    simpa using h2
  · intro g hg
    have h := perm_mod12_check
    rw [List.all_eq_true] at h
    have h2 := h g (List.mem_range.mpr hg)
    rw [← perm_first_period, List.countP_map] at h2
    simpa using h2

/-! ## `fastfloor` -/

theorem fastfloorTrunc_eq_floor {α : Type} [LinearOrderedField α] [FloorRing α] (x : α) :
    fastfloorTrunc x = Int.floor x := by
  unfold fastfloorTrunc truncToInt
  by_cases h0 : 0 ≤ x
  · have : ¬ x < 0 := not_lt.mpr h0
    simp [h0, this]
  · have hneg : x < 0 := not_le.mp h0
    simp only [h0, if_false, hneg, true_and]
    by_cases hi : ((Int.ceil x : Int) : α) = x
    · simp only [hi, ne_eq, not_true_eq_false, if_false]
      symm
      rw [Int.floor_eq_iff]
      constructor
      · rw [hi]
      · rw [hi]; linarith
    · simp only [ne_eq, hi, not_false_eq_true, if_true]
      symm
      rw [Int.floor_eq_iff]
      have h1 := Int.ceil_lt_add_one x
      have h2 := Int.le_ceil x
      have h3 : x < ((Int.ceil x : Int) : α) := lt_of_le_of_ne h2 (Ne.symm hi)
      push_cast
      constructor <;> linarith

/-- C14: `fastfloor x` is the mathematical floor of `x`: it is the integer `n` with
`n ≤ x < n + 1`; the implementation by truncation that the spec describes computes the
same value; in particular `fastfloor 0 = 0`, `fastfloor n = n` for every integer `n`
(negative ones included) and `fastfloor (−5/2) = −3`.  Machine integers are modelled
as unbounded. -/
theorem fastfloor_is_floor {α : Type} [LinearOrderedField α] [FloorRing α] (x : α) :
    ((fastfloor x : Int) : α) ≤ x ∧ x < ((fastfloor x : Int) : α) + 1 ∧
    fastfloorTrunc x = fastfloor x ∧
    fastfloor (0 : α) = 0 ∧ (∀ n : Int, fastfloor (n : α) = n) ∧
    fastfloor (-5 / 2 : α) = -3 := by
  refine ⟨Int.floor_le x, Int.lt_floor_add_one x, fastfloorTrunc_eq_floor x, Int.floor_zero,
    fun n => Int.floor_intCast n, ?_⟩
  rw [fastfloor, Int.floor_eq_iff]
  constructor <;> norm_num

/-! ## The 3D corner ordering -/

theorem eq_iff_not_lt_and (a b : ℝ) : a = b ↔ ¬ a < b ∧ ¬ b < a := by
  constructor
  · rintro rfl; exact ⟨lt_irrefl _, lt_irrefl _⟩
  · rintro ⟨h1, h2⟩; exact le_antisymm (not_lt.mp h2) (not_lt.mp h1)

/-- C15: for all reals `x0, y0, z0` (ties included) exactly one of the six conditions
of the 3D ladder holds; whichever row's condition holds, the ladder assigns that row's
offsets; and these offsets are those of the rank sort of the three values in which a
tie ranks the earlier axis higher. -/
theorem order3_eq_rankSort3 (x y z : ℝ) :
    (ladderConds x y z).count true = 1 ∧
    (∀ p ∈ (ladderConds x y z).zip ladderOffsets, p.1 = true → order3 x y z = p.2) ∧
    order3 x y z = rankSort3 x y z := by
  simp only [order3, rankSort3, place3, ladderConds, ladderOffsets, ranksAbove, ind, List.range,
    List.range.loop, ge_iff_le, gt_iff_lt, ← not_lt, eq_iff_not_lt_and]
  by_cases h1 : x < y <;> by_cases h2 : y < x <;> by_cases h3 : y < z <;>
  by_cases h4 : z < y <;> by_cases h5 : x < z <;> by_cases h6 : z < x <;>
  first
  | (exfalso; linarith)
  | simp [h1, h2, h3, h4, h5, h6, List.filter]

/-! ## Ranks in the simplex table, ties included -/

theorem numLess_eq_sum (x y z w t : ℝ) :
    numLess x y z w t = (if x < t then 1 else 0) + (if y < t then 1 else 0) +
      (if z < t then 1 else 0) + (if w < t then 1 else 0) := by
  simp only [numLess, List.filter]
  by_cases h1 : x < t <;> by_cases h2 : y < t <;> by_cases h3 : z < t <;> by_cases h4 : w < t <;>
  simp [h1, h2, h3, h4]

theorem lt_add_tie (a b : ℝ) :
    (if a < b then 1 else 0) + (if a = b then 1 else 0) = (if b < a then 0 else (1 : Nat)) := by
  rcases lt_trichotomy a b with h | h | h
  · simp [h, h.not_lt, h.ne]
  · simp [h]
  · simp [h, h.not_lt, h.ne']

theorem ascRank_x (x y z w : ℝ) :
    numLess x y z w x + numTied [] x =
      (if y < x then 1 else 0) + (if z < x then 1 else 0) + (if w < x then 1 else 0) := by
  simp [numLess_eq_sum, numTied]

theorem ascRank_y (x y z w : ℝ) :
    numLess x y z w y + numTied [x] y =
      (if y < x then 0 else 1) + (if z < y then 1 else 0) + (if w < y then 1 else 0) := by
  have h := lt_add_tie x y
  have e : numTied [x] y = if x = y then 1 else 0 := by
    by_cases hxy : x = y <;> simp [numTied, List.filter, hxy]
  rw [numLess_eq_sum, e, ← h]
  simp only [lt_irrefl, if_false]
  ring

theorem ascRank_z (x y z w : ℝ) :
    numLess x y z w z + numTied [x, y] z =
      (if z < x then 0 else 1) + (if z < y then 0 else 1) + (if w < z then 1 else 0) := by
  have h1 := lt_add_tie x z
  have h2 := lt_add_tie y z
  have e : numTied [x, y] z = (if x = z then 1 else 0) + (if y = z then 1 else 0) := by
    by_cases hxz : x = z <;> by_cases hyz : y = z <;> simp [numTied, List.filter, hxz, hyz]
  rw [numLess_eq_sum, e, ← h1, ← h2]
  simp only [lt_irrefl, if_false]
  ring

theorem ascRank_w (x y z w : ℝ) :
    numLess x y z w w + numTied [x, y, z] w =
      (if w < x then 0 else 1) + (if w < y then 0 else 1) + (if w < z then 0 else 1) := by
  have h1 := lt_add_tie x w
  have h2 := lt_add_tie y w
  have h3 := lt_add_tie z w
  have e : numTied [x, y, z] w =
      (if x = w then 1 else 0) + (if y = w then 1 else 0) + (if z = w then 1 else 0) := by
    by_cases hxw : x = w <;> by_cases hyw : y = w <;> by_cases hzw : z = w <;>
    simp [numTied, List.filter, hxw, hyw, hzw]
  rw [numLess_eq_sum, e, ← h1, ← h2, ← h3]
  simp only [lt_irrefl, if_false]
  ring

set_option maxHeartbeats 4000000 in
/-- C18: for all reals `x0, y0, z0, w0` (ties included) with `c` the mask of the six
strict comparisons, `simplex[c][a]` is the ascending rank of axis `a`: the number of
axes with a strictly smaller coordinate plus the number of earlier axes with an equal
coordinate.  In particular the entry 3 sits at an axis whose coordinate is maximal and
the entry 0 at an axis whose coordinate is minimal. -/
theorem simplex_rank_with_ties (x y z w : ℝ) :
    (simplexAt (mask4 x y z w) 0 = numLess x y z w x + numTied [] x ∧
     simplexAt (mask4 x y z w) 1 = numLess x y z w y + numTied [x] y ∧
     simplexAt (mask4 x y z w) 2 = numLess x y z w z + numTied [x, y] z ∧
     simplexAt (mask4 x y z w) 3 = numLess x y z w w + numTied [x, y, z] w) ∧
    ((simplexAt (mask4 x y z w) 0 = 3 → y ≤ x ∧ z ≤ x ∧ w ≤ x) ∧
     (simplexAt (mask4 x y z w) 1 = 3 → x ≤ y ∧ z ≤ y ∧ w ≤ y) ∧
     (simplexAt (mask4 x y z w) 2 = 3 → x ≤ z ∧ y ≤ z ∧ w ≤ z) ∧
     (simplexAt (mask4 x y z w) 3 = 3 → x ≤ w ∧ y ≤ w ∧ z ≤ w)) ∧
    ((simplexAt (mask4 x y z w) 0 = 0 → x ≤ y ∧ x ≤ z ∧ x ≤ w) ∧
     (simplexAt (mask4 x y z w) 1 = 0 → y ≤ x ∧ y ≤ z ∧ y ≤ w) ∧
     (simplexAt (mask4 x y z w) 2 = 0 → z ≤ x ∧ z ≤ y ∧ z ≤ w) ∧
     (simplexAt (mask4 x y z w) 3 = 0 → w ≤ x ∧ w ≤ y ∧ w ≤ z)) := by
  rw [ascRank_x, ascRank_y, ascRank_z, ascRank_w]
  unfold mask4
  simp only [gt_iff_lt]
  by_cases h1 : y < x <;> by_cases h2 : z < x <;> by_cases h3 : z < y <;>
  by_cases h4 : w < x <;> by_cases h5 : w < y <;> by_cases h6 : w < z <;>
  simp only [h1, h2, h3, h4, h5, h6, if_true, if_false] <;>
  first
  | (exfalso; linarith)
  | (refine ⟨by decide, ⟨?_, ?_, ?_, ?_⟩, ⟨?_, ?_, ?_, ?_⟩⟩ <;> intro h <;>
      first
      | (exact absurd h (by decide))
      | (refine ⟨?_, ?_, ?_⟩ <;> linarith))

/-! ## Octave composition -/

end SimplexNoise
